import Mathlib

/-!
Verification of the BN254 syscall bindings in `src/bn254.rs`.

The crate is a marshaling shim: it issues a trap instruction with a fixed
numeric operation code and up to three memory addresses as operands, and for
the combined multiply-add it first stages a 16-word concatenation buffer.

Shallow embedding used here:
* guest memory is word-addressed, `Mem := Nat → Nat`;
* a trap invocation is recorded as a `TrapEvent` (code and the two operand
  addresses) and its memory effect is supplied by an abstract `Host`
  function, mirroring the spec's "abstract host capability" design note;
* `core::ptr::copy` has memmove semantics: the source is read in full from
  the memory as it was before the destination is written;
* the `target_os = "zkvm"` conditional compilation gate is a `Target` flag.
-/

namespace Bn254

/-- `BN254_SCALAR_MUL` syscall ID (`src/bn254.rs`). -/
def BN254_SCALAR_MUL : Nat := 0x00010180

/-- `BN254_SCALAR_MAC` syscall ID (`src/bn254.rs`). -/
def BN254_SCALAR_MAC : Nat := 0x00010181

/-- `BN254_MULADD` syscall ID (`src/bn254.rs`). -/
def BN254_MULADD : Nat := 0x0001011F

/-- Word-addressed guest memory: every address holds one 32-bit word value. -/
def Mem : Type := Nat → Nat

/-- One recorded trap invocation: the operation code placed in the code
register and the two operand addresses. -/
structure TrapEvent where
  code : Nat
  arg0 : Nat
  arg1 : Nat
deriving DecidableEq, Repr

/-- Machine state visible to the bindings: the guest memory plus the log of
trap invocations issued so far. -/
structure State where
  mem : Mem
  traps : List TrapEvent

/-- Host-side trap handler: given the operation code and the two operand
addresses, it transforms guest memory.  The spec keeps the host's arithmetic
outside this layer, so the handler is an abstract parameter. -/
def Host : Type := Nat → Nat → Nat → Mem → Mem

/-- Compilation target: either the zkVM (where traps are emitted) or any
other target (where the cfg-gated trap compiles away). -/
inductive Target where
  | zkvm
  | other
deriving DecidableEq, Repr

/-- The `n` words stored at addresses `src, src+1, ..., src+n-1`. -/
def readRange (m : Mem) (src n : Nat) : List Nat :=
  (List.range n).map fun i => m (src + i)

/-- Overwrite the words at `dst, dst+1, ...` with the list `ws`, leaving all
other addresses unchanged. -/
def writeRange (m : Mem) (dst : Nat) (ws : List Nat) : Mem :=
  fun a => if dst ≤ a ∧ a < dst + ws.length then ws.getD (a - dst) 0 else m a

/-- `core::ptr::copy` (memmove semantics): the `n` source words are read from
the original memory, then written at the destination. -/
def ptrCopy (m : Mem) (src dst n : Nat) : Mem :=
  writeRange m dst (readRange m src n)

/-- The word ranges `[a, a+n)` and `[b, b+k)` do not overlap. -/
def disjointRange (a n b k : Nat) : Prop :=
  a + n ≤ b ∨ b + k ≤ a

instance (a n b k : Nat) : Decidable (disjointRange a n b k) :=
  inferInstanceAs (Decidable (a + n ≤ b ∨ b + k ≤ a))

/-- Modelled from the spec: the crate-level trap-raising facility invoked as
`crate::syscall!(code, a0, a1)` is not under `src/`; per the spec it "issues
a trap-like instruction with a fixed numeric operation code and up to three
memory addresses as arguments".  The host applies its effect to memory and
the invocation is appended to the trap log. -/
def syscallTrap (host : Host) (code a0 a1 : Nat) (s : State) : State :=
  ⟨host code a0 a1 s.mem, s.traps ++ [⟨code, a0, a1⟩]⟩

/-- `syscall_bn254_scalar_mul(p, q)`: issues the trap with code
`BN254_SCALAR_MUL` and the addresses `p`, `q` as operands. -/
def syscall_bn254_scalar_mul (host : Host) (p q : Nat) (s : State) : State :=
  syscallTrap host BN254_SCALAR_MUL p q s

/-- `syscall_bn254_scalar_mac(ret, a, b)`: the body is literally
`crate::syscall!(BN254_SCALAR_MUL, p, q)` — the multiply code, and the
identifiers `p` and `q`, which are not among the parameters `ret`, `a`, `b`.
Those out-of-scope identifiers are taken here as extra inputs standing for
whatever addresses they would denote; the parameters `ret`, `a`, `b` are
kept to show that the body never uses them. -/
def syscall_bn254_scalar_mac (host : Host) (ret a b p q : Nat) (s : State) : State :=
  syscallTrap host BN254_SCALAR_MUL p q s

/-- `syscall_bn254_muladd(x, y)`: on the zkVM target, issue the `ecall` trap
with code `BN254_MULADD` in `t0` and the addresses `x`, `y` in `a0`, `a1`;
on any other target the `cfg`-gated body is empty. -/
def syscall_bn254_muladd (tgt : Target) (host : Host) (x y : Nat) (s : State) : State :=
  match tgt with
  | Target.zkvm => syscallTrap host BN254_MULADD x y s
  | Target.other => s

/-- The number of limbs in a "uint256" (`const N: usize = 8`). -/
def N : Nat := 8

/-- The three staging copies performed by `syscall_bn254_muladd_entrypoint`
before it calls `syscall_bn254_muladd`: copy `x` into the first `N` words of
the concatenation buffer, `y` into its second `N` words, and `z` into
`result`. -/
def muladdStage (m : Mem) (result x y z concat : Nat) : Mem :=
  let m1 := ptrCopy m x concat N
  let m2 := ptrCopy m1 y (concat + N) N
  ptrCopy m2 z result N

/-- `syscall_bn254_muladd_entrypoint(result, op, x, y, z)`: performs the
three staging copies (unconditionally) and then calls
`syscall_bn254_muladd(result, concat)`.  The address of the local 16-word
`concat_y_z` buffer is passed explicitly as `concat`; `op` is accepted but
never read by the body. -/
def syscall_bn254_muladd_entrypoint (tgt : Target) (host : Host)
    (result op x y z concat : Nat) (s : State) : State :=
  syscall_bn254_muladd tgt host result concat
    ⟨muladdStage s.mem result x y z concat, s.traps⟩

/-- Little-endian value of a list of 32-bit limbs. -/
def fromLimbs (ws : List Nat) : Nat :=
  ws.foldr (fun w acc => w + 2 ^ 32 * acc) 0

/-- The 8 little-endian 32-bit limbs of `v mod 2^256`. -/
def toLimbs8 (v : Nat) : List Nat :=
  (List.range 8).map fun i => v / 2 ^ (32 * i) % 2 ^ 32

/-- Modelled from the spec: "a mock trap that performs real little-endian
256-bit `x*y+z`" (the host-side handler is outside this repository).  On the
multiply-add code it reads the addend from its first operand buffer, the two
multiplicands from the two halves of its second (16-word) operand buffer,
and writes the 256-bit truncated result back into the first operand. -/
def mockMulAddHost : Host := fun code a0 a1 m =>
  if code = BN254_MULADD then
    writeRange m a0 (toLimbs8 ((fromLimbs (readRange m a1 8) * fromLimbs (readRange m (a1 + 8) 8)
      + fromLimbs (readRange m a0 8)) % 2 ^ 256))
  else m

/-- Concrete memory used by the witnesses: address `a` holds the word `a`. -/
def wMem : Mem := fun a => a

/-- Concrete memory for the spec's concrete multiply-add scenario: the buffer
at address 8 holds `x = [1,0,0,0,0,0,0,0]`, the buffer at 16 holds
`y = [2,0,0,0,0,0,0,0]`, the buffer at 24 holds `z = [3,0,0,0,0,0,0,0]`. -/
def wMem3 : Mem := fun a =>
  if a = 8 then 1 else if a = 16 then 2 else if a = 24 then 3 else 0

/-- A host that leaves memory unchanged, used by witnesses that only observe
the staging and the trap log. -/
def wHost : Host := fun _ _ _ m => m

/-- Concrete initial state for the witnesses. -/
def wState : State := ⟨wMem, []⟩

/-! ### Basic lemmas about ranges and copies -/

theorem length_readRange (m : Mem) (src n : Nat) : (readRange m src n).length = n := by
  unfold readRange
  simp

theorem writeRange_apply_out (m : Mem) (dst : Nat) (ws : List Nat) (a : Nat)
    (h : a < dst ∨ dst + ws.length ≤ a) : writeRange m dst ws a = m a := by
  unfold writeRange
  rw [if_neg (by omega)]

theorem writeRange_apply_in (m : Mem) (dst : Nat) (ws : List Nat) (i : Nat)
    (h : i < ws.length) : writeRange m dst ws (dst + i) = ws.getD i 0 := by
  unfold writeRange
  rw [if_pos (by omega), Nat.add_sub_cancel_left]

theorem readRange_congr (m1 m2 : Mem) (src n : Nat)
    (h : ∀ i, i < n → m1 (src + i) = m2 (src + i)) :
    readRange m1 src n = readRange m2 src n := by
  unfold readRange
  apply List.map_congr_left
  intro i hi
  exact h i (List.mem_range.mp hi)

theorem readRange_writeRange_disjoint (m : Mem) (dst : Nat) (ws : List Nat) (src n : Nat)
    (h : disjointRange dst ws.length src n) :
    readRange (writeRange m dst ws) src n = readRange m src n := by
  apply readRange_congr
  intro i hi
  apply writeRange_apply_out
  unfold disjointRange at h
  omega

theorem readRange_writeRange_self (m : Mem) (dst : Nat) (ws : List Nat) :
    readRange (writeRange m dst ws) dst ws.length = ws := by
  unfold readRange
  apply List.ext_getElem
  · simp
  · intro i h1 h2
    simp only [List.getElem_map, List.getElem_range]
    rw [writeRange_apply_in m dst ws i (by simpa using h2)]
    exact List.getD_eq_getElem ws 0 (by simpa using h2)

theorem readRange_writeRange_of_length (m : Mem) (dst n : Nat) (ws : List Nat)
    (h : ws.length = n) : readRange (writeRange m dst ws) dst n = ws := by
  subst h
  exact readRange_writeRange_self m dst ws

theorem readRange_ptrCopy_dst (m : Mem) (src dst n : Nat) :
    readRange (ptrCopy m src dst n) dst n = readRange m src n := by
  unfold ptrCopy
  exact readRange_writeRange_of_length m dst n _ (length_readRange m src n)

theorem readRange_ptrCopy_out (m : Mem) (src dst n a k : Nat)
    (h : disjointRange dst n a k) :
    readRange (ptrCopy m src dst n) a k = readRange m a k := by
  unfold ptrCopy
  apply readRange_writeRange_disjoint
  unfold disjointRange at h ⊢
  rw [length_readRange]
  exact h

/-! ### Staging lemmas for the multiply-add entrypoint -/

theorem muladdStage_result (m : Mem) (result x y z concat : Nat)
    (hz : disjointRange concat 16 z 8) :
    readRange (muladdStage m result x y z concat) result 8 = readRange m z 8 := by
  unfold muladdStage N
  rw [readRange_ptrCopy_dst]
  unfold disjointRange at hz
  rw [readRange_ptrCopy_out _ _ _ _ _ _ (by unfold disjointRange; omega)]
  rw [readRange_ptrCopy_out _ _ _ _ _ _ (by unfold disjointRange; omega)]

theorem muladdStage_concat_lo (m : Mem) (result x y z concat : Nat)
    (hr : disjointRange concat 16 result 8) :
    readRange (muladdStage m result x y z concat) concat 8 = readRange m x 8 := by
  unfold muladdStage N
  unfold disjointRange at hr
  rw [readRange_ptrCopy_out _ _ _ _ _ _ (by unfold disjointRange; omega)]
  rw [readRange_ptrCopy_out _ _ _ _ _ _ (by unfold disjointRange; omega)]
  rw [readRange_ptrCopy_dst]

theorem muladdStage_concat_hi (m : Mem) (result x y z concat : Nat)
    (hy : disjointRange concat 16 y 8) (hr : disjointRange concat 16 result 8) :
    readRange (muladdStage m result x y z concat) (concat + 8) 8 = readRange m y 8 := by
  unfold muladdStage N
  unfold disjointRange at hy hr
  rw [readRange_ptrCopy_out _ _ _ _ _ _ (by unfold disjointRange; omega)]
  rw [readRange_ptrCopy_dst]
  rw [readRange_ptrCopy_out _ _ _ _ _ _ (by unfold disjointRange; omega)]

theorem muladdStage_preserves (m : Mem) (result x y z concat b : Nat)
    (hb : disjointRange concat 16 b 8) (hbr : disjointRange result 8 b 8) :
    readRange (muladdStage m result x y z concat) b 8 = readRange m b 8 := by
  unfold muladdStage N
  unfold disjointRange at hb hbr
  rw [readRange_ptrCopy_out _ _ _ _ _ _ (by unfold disjointRange; omega)]
  rw [readRange_ptrCopy_out _ _ _ _ _ _ (by unfold disjointRange; omega)]
  rw [readRange_ptrCopy_out _ _ _ _ _ _ (by unfold disjointRange; omega)]

/-! ### Claim theorems -/

/-- C5: the three operation-code constants have exactly the literal values
scalar-multiply = 0x00010180, scalar-multiply-accumulate = 0x00010181,
multiply-add = 0x0001011F. -/
theorem syscall_id_values :
    BN254_SCALAR_MUL = 0x00010180 ∧ BN254_SCALAR_MAC = 0x00010181 ∧
    BN254_MULADD = 0x0001011F :=
  ⟨rfl, rfl, rfl⟩

/-- C6: for every pair of buffers `p` (mutable) and `q` (read-only),
`syscall_bn254_scalar_mul` invokes the trap exactly once, with the
scalar-multiply operation code and the addresses of `p` and `q` as its two
operands, and performs no other action itself: the trap log grows by exactly
that one event and the memory is exactly what the host handler produces. -/
theorem scalar_mul_trap_contract (host : Host) (p q : Nat) (s : State) :
    (syscall_bn254_scalar_mul host p q s).traps
      = s.traps ++ [⟨BN254_SCALAR_MUL, p, q⟩] ∧
    (syscall_bn254_scalar_mul host p q s).mem = host BN254_SCALAR_MUL p q s.mem :=
  ⟨rfl, rfl⟩

/-- C2: `syscall_bn254_scalar_mac` invokes the trap with the multiply
operation code and the addresses denoted by the unrelated identifiers `p`
and `q`, not the accumulate code with its own `ret`, `a`, `b` parameters:
the recorded event carries `BN254_SCALAR_MUL` (which differs from
`BN254_SCALAR_MAC`) and the operands `p`, `q`, and the whole call is
independent of the values of `ret`, `a`, `b`. -/
theorem scalar_mac_miswired (host : Host) (ret a b p q : Nat) (s : State) :
    (syscall_bn254_scalar_mac host ret a b p q s).traps
      = s.traps ++ [⟨BN254_SCALAR_MUL, p, q⟩] ∧
    BN254_SCALAR_MUL ≠ BN254_SCALAR_MAC ∧
    ∀ r2 a2 b2, syscall_bn254_scalar_mac host r2 a2 b2 p q s
      = syscall_bn254_scalar_mac host ret a b p q s :=
  ⟨rfl, by decide, fun _ _ _ => rfl⟩

/-- C4: on a build configuration whose target is not the zkVM, every call to
`syscall_bn254_muladd` is a complete no-op: it returns the state unchanged,
records zero trap invocations, and leaves every buffer unmodified. -/
theorem muladd_non_zkvm_noop (tgt : Target) (host : Host) (x y : Nat) (s : State)
    (h : tgt ≠ Target.zkvm) :
    syscall_bn254_muladd tgt host x y s = s ∧
    (syscall_bn254_muladd tgt host x y s).traps = s.traps ∧
    ∀ a k, readRange (syscall_bn254_muladd tgt host x y s).mem a k
      = readRange s.mem a k := by
  cases tgt with
  | zkvm => exact absurd rfl h
  | other => exact ⟨rfl, rfl, fun a k => rfl⟩

/-- Witness for the non-zkVM no-op at a concrete host, addresses and state. -/
theorem muladd_non_zkvm_noop_witness :
    Target.other ≠ Target.zkvm ∧
    (syscall_bn254_muladd Target.other wHost 0 8 wState = wState ∧
     (syscall_bn254_muladd Target.other wHost 0 8 wState).traps = wState.traps ∧
     ∀ a k, readRange (syscall_bn254_muladd Target.other wHost 0 8 wState).mem a k
       = readRange wState.mem a k) :=
  ⟨by decide, muladd_non_zkvm_noop Target.other wHost 0 8 wState (by decide)⟩

/-- C7: the operation selector `op` of the multiply-add entrypoint has no
effect on behavior: for fixed buffers and host, any two values of `op` give
identical final states (identical memory effects and trap invocations). -/
theorem muladd_entrypoint_op_irrelevant (tgt : Target) (host : Host)
    (result op1 op2 x y z concat : Nat) (s : State) :
    syscall_bn254_muladd_entrypoint tgt host result op1 x y z concat s
      = syscall_bn254_muladd_entrypoint tgt host result op2 x y z concat s :=
  rfl

/-- C1: for every `x`, `y`, `z`, the multiply-add entrypoint writes `z`'s
8 words unchanged into `result`, `x`'s 8 words into words [0..8) and `y`'s
8 words into words [8..16) of the 16-word concatenation buffer, all before
the trap (the host handler receives exactly the staged memory), and invokes
the trap with the multiply-add code, the `result` address as first operand
and the concatenation buffer address as second operand. -/
theorem muladd_entrypoint_staging_contract (host : Host)
    (result op x y z concat : Nat) (s : State)
    (hx : disjointRange concat 16 x 8) (hy : disjointRange concat 16 y 8)
    (hz : disjointRange concat 16 z 8) (hr : disjointRange concat 16 result 8) :
    readRange (muladdStage s.mem result x y z concat) result 8 = readRange s.mem z 8 ∧
    readRange (muladdStage s.mem result x y z concat) concat 8 = readRange s.mem x 8 ∧
    readRange (muladdStage s.mem result x y z concat) (concat + 8) 8 = readRange s.mem y 8 ∧
    (syscall_bn254_muladd_entrypoint Target.zkvm host result op x y z concat s).traps
      = s.traps ++ [⟨BN254_MULADD, result, concat⟩] ∧
    (syscall_bn254_muladd_entrypoint Target.zkvm host result op x y z concat s).mem
      = host BN254_MULADD result concat (muladdStage s.mem result x y z concat) :=
  ⟨muladdStage_result s.mem result x y z concat hz,
   muladdStage_concat_lo s.mem result x y z concat hr,
   muladdStage_concat_hi s.mem result x y z concat hy hr,
   rfl, rfl⟩

/-- Witness for the staging contract with `result` at 0, `x` at 8, `y` at
16, `z` at 24 and the concatenation buffer at 32. -/
theorem muladd_entrypoint_staging_contract_witness :
    (disjointRange 32 16 8 8 ∧ disjointRange 32 16 16 8 ∧
     disjointRange 32 16 24 8 ∧ disjointRange 32 16 0 8) ∧
    (readRange (muladdStage wState.mem 0 8 16 24 32) 0 8 = readRange wState.mem 24 8 ∧
     readRange (muladdStage wState.mem 0 8 16 24 32) 32 8 = readRange wState.mem 8 8 ∧
     readRange (muladdStage wState.mem 0 8 16 24 32) (32 + 8) 8 = readRange wState.mem 16 8 ∧
     (syscall_bn254_muladd_entrypoint Target.zkvm wHost 0 0 8 16 24 32 wState).traps
       = wState.traps ++ [⟨BN254_MULADD, 0, 32⟩] ∧
     (syscall_bn254_muladd_entrypoint Target.zkvm wHost 0 0 8 16 24 32 wState).mem
       = wHost BN254_MULADD 0 32 (muladdStage wState.mem 0 8 16 24 32)) :=
  ⟨⟨by decide, by decide, by decide, by decide⟩,
   muladd_entrypoint_staging_contract wHost 0 0 8 16 24 32 wState
     (by decide) (by decide) (by decide) (by decide)⟩

/-- C8: the staging contract holds even when the `x`, `y`, `z` and `result`
buffers alias or coincide in any combination, provided the concatenation
buffer does not overlap any of them: at trap time `result` holds `z`'s
original words and the concatenation buffer holds `x`'s then `y`'s original
words. -/
theorem muladd_entrypoint_staging_alias (result x y z concat : Nat) (m : Mem)
    (hx : disjointRange concat 16 x 8) (hy : disjointRange concat 16 y 8)
    (hz : disjointRange concat 16 z 8) (hr : disjointRange concat 16 result 8) :
    readRange (muladdStage m result x y z concat) result 8 = readRange m z 8 ∧
    readRange (muladdStage m result x y z concat) concat 8 = readRange m x 8 ∧
    readRange (muladdStage m result x y z concat) (concat + 8) 8 = readRange m y 8 :=
  ⟨muladdStage_result m result x y z concat hz,
   muladdStage_concat_lo m result x y z concat hr,
   muladdStage_concat_hi m result x y z concat hy hr⟩

/-- Witness for the aliasing case in which `x`, `y`, `z` and `result` all
coincide at address 0 while the concatenation buffer sits at address 8. -/
theorem muladd_entrypoint_staging_alias_witness :
    (disjointRange 8 16 0 8 ∧ disjointRange 8 16 0 8 ∧
     disjointRange 8 16 0 8 ∧ disjointRange 8 16 0 8) ∧
    (readRange (muladdStage wMem 0 0 0 0 8) 0 8 = readRange wMem 0 8 ∧
     readRange (muladdStage wMem 0 0 0 0 8) 8 8 = readRange wMem 0 8 ∧
     readRange (muladdStage wMem 0 0 0 0 8) (8 + 8) 8 = readRange wMem 0 8) :=
  ⟨⟨by decide, by decide, by decide, by decide⟩,
   muladd_entrypoint_staging_alias 0 0 0 0 8 wMem
     (by decide) (by decide) (by decide) (by decide)⟩

/-- C9: when `x`, `y`, `z` are disjoint from `result` (and from the fresh
concatenation buffer), the staging code of the entrypoint leaves the
contents of the `x`, `y` and `z` buffers unchanged: the memory it hands to
the trap agrees with the initial memory on all three input buffers. -/
theorem muladd_entrypoint_inputs_readonly (result x y z concat : Nat) (m : Mem)
    (hcx : disjointRange concat 16 x 8) (hcy : disjointRange concat 16 y 8)
    (hcz : disjointRange concat 16 z 8)
    (hrx : disjointRange result 8 x 8) (hry : disjointRange result 8 y 8)
    (hrz : disjointRange result 8 z 8) :
    readRange (muladdStage m result x y z concat) x 8 = readRange m x 8 ∧
    readRange (muladdStage m result x y z concat) y 8 = readRange m y 8 ∧
    readRange (muladdStage m result x y z concat) z 8 = readRange m z 8 :=
  ⟨muladdStage_preserves m result x y z concat x hcx hrx,
   muladdStage_preserves m result x y z concat y hcy hry,
   muladdStage_preserves m result x y z concat z hcz hrz⟩

/-- Witness for the read-only inputs with `result` at 0, `x` at 8, `y` at
16, `z` at 24 and the concatenation buffer at 32. -/
theorem muladd_entrypoint_inputs_readonly_witness :
    (disjointRange 32 16 8 8 ∧ disjointRange 32 16 16 8 ∧ disjointRange 32 16 24 8 ∧
     disjointRange 0 8 8 8 ∧ disjointRange 0 8 16 8 ∧ disjointRange 0 8 24 8) ∧
    (readRange (muladdStage wMem 0 8 16 24 32) 8 8 = readRange wMem 8 8 ∧
     readRange (muladdStage wMem 0 8 16 24 32) 16 8 = readRange wMem 16 8 ∧
     readRange (muladdStage wMem 0 8 16 24 32) 24 8 = readRange wMem 24 8) :=
  ⟨⟨by decide, by decide, by decide, by decide, by decide, by decide⟩,
   muladd_entrypoint_inputs_readonly 0 8 16 24 32 wMem
     (by decide) (by decide) (by decide) (by decide) (by decide) (by decide)⟩

/-- C10: on a non-zkVM target the entrypoint still performs all staging
copies unconditionally: it records no trap, its final memory is exactly the
staged memory, so `result` holds `z`'s words and the local concatenation
buffer holds `x`'s then `y`'s words even though no trap was invoked. -/
theorem muladd_entrypoint_non_zkvm_staging (host : Host)
    (result op x y z concat : Nat) (s : State)
    (hy : disjointRange concat 16 y 8) (hz : disjointRange concat 16 z 8)
    (hr : disjointRange concat 16 result 8) :
    (syscall_bn254_muladd_entrypoint Target.other host result op x y z concat s).traps
      = s.traps ∧
    (syscall_bn254_muladd_entrypoint Target.other host result op x y z concat s).mem
      = muladdStage s.mem result x y z concat ∧
    readRange (syscall_bn254_muladd_entrypoint Target.other host result op x y z
        concat s).mem result 8 = readRange s.mem z 8 ∧
    readRange (syscall_bn254_muladd_entrypoint Target.other host result op x y z
        concat s).mem concat 8 = readRange s.mem x 8 ∧
    readRange (syscall_bn254_muladd_entrypoint Target.other host result op x y z
        concat s).mem (concat + 8) 8 = readRange s.mem y 8 :=
  ⟨rfl, rfl,
   muladdStage_result s.mem result x y z concat hz,
   muladdStage_concat_lo s.mem result x y z concat hr,
   muladdStage_concat_hi s.mem result x y z concat hy hr⟩

/-- Witness for the non-zkVM staging, at concrete buffers where the staging
visibly modifies `result`: afterwards `result` holds `z`'s words `[24..32)`
and not its own previous contents `[0..8)`. -/
theorem muladd_entrypoint_non_zkvm_staging_witness :
    (disjointRange 32 16 16 8 ∧ disjointRange 32 16 24 8 ∧ disjointRange 32 16 0 8) ∧
    ((syscall_bn254_muladd_entrypoint Target.other wHost 0 0 8 16 24 32 wState).traps
       = wState.traps ∧
     (syscall_bn254_muladd_entrypoint Target.other wHost 0 0 8 16 24 32 wState).mem
       = muladdStage wState.mem 0 8 16 24 32 ∧
     readRange (syscall_bn254_muladd_entrypoint Target.other wHost 0 0 8 16 24 32
         wState).mem 0 8 = readRange wState.mem 24 8 ∧
     readRange (syscall_bn254_muladd_entrypoint Target.other wHost 0 0 8 16 24 32
         wState).mem 32 8 = readRange wState.mem 8 8 ∧
     readRange (syscall_bn254_muladd_entrypoint Target.other wHost 0 0 8 16 24 32
         wState).mem (32 + 8) 8 = readRange wState.mem 16 8) ∧
    readRange (syscall_bn254_muladd_entrypoint Target.other wHost 0 0 8 16 24 32
        wState).mem 0 8 ≠ readRange wState.mem 0 8 :=
  ⟨⟨by decide, by decide, by decide⟩,
   muladd_entrypoint_non_zkvm_staging wHost 0 0 8 16 24 32 wState
     (by decide) (by decide) (by decide),
   by decide⟩

/-- C3: with the trap modeled as a host computing little-endian 256-bit
`x*y + z` over its two operand buffers, the multiply-add entrypoint leaves
in `result` the 8 little-endian limbs of `x*y + z` truncated to 256 bits. -/
theorem muladd_entrypoint_mock_host (result op x y z concat : Nat) (s : State)
    (hx : disjointRange concat 16 x 8) (hy : disjointRange concat 16 y 8)
    (hz : disjointRange concat 16 z 8) (hr : disjointRange concat 16 result 8) :
    readRange (syscall_bn254_muladd_entrypoint Target.zkvm mockMulAddHost
        result op x y z concat s).mem result 8
      = toLimbs8 ((fromLimbs (readRange s.mem x 8) * fromLimbs (readRange s.mem y 8)
          + fromLimbs (readRange s.mem z 8)) % 2 ^ 256) := by
  show readRange (mockMulAddHost BN254_MULADD result concat
      (muladdStage s.mem result x y z concat)) result 8 = _
  unfold mockMulAddHost
  rw [if_pos rfl]
  rw [muladdStage_concat_lo s.mem result x y z concat hr,
      muladdStage_concat_hi s.mem result x y z concat hy hr,
      muladdStage_result s.mem result x y z concat hz]
  exact readRange_writeRange_of_length _ _ _ _ (by unfold toLimbs8; simp)

/-- Witness for the mock-host scenario of the spec: `x = [1,0,...,0]`,
`y = [2,0,...,0]`, `z = [3,0,...,0]` yield `result = [5,0,...,0]`. -/
theorem muladd_entrypoint_mock_host_witness :
    (disjointRange 32 16 8 8 ∧ disjointRange 32 16 16 8 ∧
     disjointRange 32 16 24 8 ∧ disjointRange 32 16 0 8) ∧
    readRange (syscall_bn254_muladd_entrypoint Target.zkvm mockMulAddHost
        0 0 8 16 24 32 ⟨wMem3, []⟩).mem 0 8 = [5, 0, 0, 0, 0, 0, 0, 0] :=
  ⟨⟨by decide, by decide, by decide, by decide⟩,
   (muladd_entrypoint_mock_host 0 0 8 16 24 32 ⟨wMem3, []⟩
      (by decide) (by decide) (by decide) (by decide)).trans (by decide)⟩

end Bn254
